import Mathlib

/-!
# webscan: the scanning engine of `scanner/scanner.go`

A shallow embedding of the task generator (`generateTasks` with its
`addRobotsPaths` closure), of the per-task body of `worker`, and of `Stop`.

Go strings are modelled as lists of runes.  The HTTP client is an oracle from
a request to either a transport error or a response; the task channel is
modelled by the ordered trace of the operations performed on it, the stop
channel by whether it is closed.
-/

namespace Webscan

/-! ## Strings -/

/-- A Go string, as its sequence of runes. -/
abbrev GoString := List Char

/-- Go `len(s)`: the length in bytes of the UTF-8 encoding. -/
def len (s : GoString) : Nat := (s.map Char.utf8Size).sum

/-- Go `strings.HasSuffix`. -/
def HasSuffix (s suffix : GoString) : Bool := suffix.isSuffixOf s

/-- Go `strings.HasPrefix`. -/
def HasPrefix (s pre : GoString) : Bool := pre.isPrefixOf s

/-- Go `strings.TrimPrefix`: `s` without the leading `pre`, or `s` itself. -/
def TrimPrefix (s pre : GoString) : GoString :=
  if HasPrefix s pre then s.drop pre.length else s

/-- Go `strings.TrimLeft`: drops every leading rune contained in `cutset`. -/
def TrimLeft (s cutset : GoString) : GoString :=
  s.dropWhile (fun c => cutset.contains c)

/-- Go `unicode.IsSpace`: the runes with the Unicode White_Space property. -/
def isSpace (c : Char) : Bool :=
  let n := c.toNat
  (9 ≤ n && n ≤ 13) || n == 32 || n == 0x85 || n == 0xA0 || n == 0x1680 ||
  (0x2000 ≤ n && n ≤ 0x200A) || n == 0x2028 || n == 0x2029 || n == 0x202F ||
  n == 0x205F || n == 0x3000

/-- Go `strings.TrimSpace`: removes leading and trailing white space. -/
def TrimSpace (s : GoString) : GoString :=
  ((s.dropWhile isSpace).reverse.dropWhile isSpace).reverse

/-- Go `strings.Split(s, sep)` for a separator of one rune. -/
def Split (sep : Char) : GoString → List GoString
  | [] => [[]]
  | c :: cs =>
    if c = sep then [] :: Split sep cs
    else match Split sep cs with
      | [] => [[c]]
      | l :: ls => (c :: l) :: ls

/-! ## Data model -/

/-- A pending probe (`ScanTask`). -/
structure ScanTask where
  BaseURL : GoString
  Path : GoString
  FullURL : GoString
  deriving DecidableEq, Repr

/-- A response as filled in by the HTTP client: the status code stored in the
response header and the body. -/
structure Response where
  statusCode : Int
  body : GoString
  deriving DecidableEq, Repr

/-- The accessor `resp.StatusCode()` of the fasthttp client
(`ResponseHeader.StatusCode`): a stored code of 0 reads as `StatusOK` (200),
any other stored code reads as itself. -/
def Response.StatusCode (r : Response) : Int :=
  if r.statusCode = 0 then 200 else r.statusCode

/-- A request as prepared by the caller of the HTTP client: the URI, the
method, and the calls `req.Header.Set(k, v)` made on it, in order. -/
structure Request where
  uri : GoString
  method : GoString
  headerSets : List (GoString × GoString)
  deriving DecidableEq, Repr

/-- The HTTP client `client.DoTimeout`: for a request, either a transport
error or timeout (`err != nil`) or a response (`err == nil`). -/
abbrev Client := Request → Except GoString Response

/-- The request of `addRobotsPaths`: `SetRequestURI(robotsURL)`, method GET. -/
def robotsRequest (robotsURL : GoString) : Request :=
  { uri := robotsURL, method := "GET".toList, headerSets := [] }

/-- An operation on the task channel, or the robots.txt request. -/
inductive Event where
  | probe (url : GoString)
  | send (task : ScanTask)
  | close
  deriving DecidableEq, Repr

/-! ## generateTasks -/

/-- The local state of `generateTasks`: the `sync.Once`, the `robotsPaths`
slice and the operations performed so far. -/
structure GenState where
  onceDone : Bool
  robotsPaths : List GoString
  trace : List Event
  deriving DecidableEq, Repr

/-- The loop over the lines of the robots.txt body (`for _, line := range lines`),
appending to `robotsPaths`. -/
def scanLines : List GoString → List GoString → List GoString
  | [], robotsPaths => robotsPaths
  | line :: rest, robotsPaths =>
    let line := TrimSpace line
    if HasPrefix line "Disallow:".toList then
      let path := TrimSpace (TrimPrefix line "Disallow:".toList)
      if path ≠ [] ∧ path ≠ "/".toList then
        scanLines rest (robotsPaths ++ [path])
      else scanLines rest robotsPaths
    else scanLines rest robotsPaths

/-- The closure `addRobotsPaths` of `generateTasks`. -/
def addRobotsPaths (client : Client) (base : GoString) (st : GenState) : GenState :=
  let robotsURL := if !HasSuffix base "/".toList then base ++ "/".toList else base
  let robotsURL := robotsURL ++ "robots.txt".toList
  let req := robotsRequest robotsURL
  let st := { st with trace := st.trace ++ [Event.probe robotsURL] }
  match client req with
  | .ok resp =>
    if resp.StatusCode = 200 then
      { st with robotsPaths := scanLines (Split '\n' resp.body) st.robotsPaths }
    else st
  | .error _ => st

/-- The call `once.Do(func() { addRobotsPaths(base) })`. -/
def onceDo (client : Client) (base : GoString) (st : GenState) : GenState :=
  if st.onceDone then st else addRobotsPaths client base { st with onceDone := true }

/-- The inner loop `for _, path := range ...`, sending one task per path. -/
def sendPaths (base : GoString) : List GoString → List Event → List Event
  | [], trace => trace
  | path :: rest, trace =>
    let p := TrimLeft path "/".toList
    let fullURL := base ++ p
    let task : ScanTask := { BaseURL := base, Path := path, FullURL := fullURL }
    sendPaths base rest (trace ++ [Event.send task])

/-- The first loop over `s.BaseURLs`: the dictionary sweep. -/
def sweepDict (client : Client) (dict : List GoString) : List GoString → GenState → GenState
  | [], st => st
  | base :: rest, st =>
    let base := if !HasSuffix base "/".toList then base ++ "/".toList else base
    let st := onceDo client base st
    let st := { st with trace := sendPaths base dict st.trace }
    sweepDict client dict rest st

/-- The second loop over `s.BaseURLs`: the paths found in robots.txt. -/
def sweepRobots (robotsPaths : List GoString) : List GoString → List Event → List Event
  | [], trace => trace
  | base :: rest, trace =>
    let base := if !HasSuffix base "/".toList then base ++ "/".toList else base
    sweepRobots robotsPaths rest (sendPaths base robotsPaths trace)

/-- The final state of `generateTasks`, before `close(s.TaskChan)`. -/
def generateState (client : Client) (baseURLs dict : List GoString) : GenState :=
  let st := sweepDict client dict baseURLs
    { onceDone := false, robotsPaths := [], trace := [] }
  { st with trace := sweepRobots st.robotsPaths baseURLs st.trace }

/-- The function `generateTasks`: the operations it performs, in order. -/
def generateTasks (client : Client) (baseURLs dict : List GoString) : List Event :=
  (generateState client baseURLs dict).trace ++ [Event.close]

/-- The tasks sent on the task channel, in order. -/
def sentTasks : List Event → List ScanTask
  | [] => []
  | Event.send t :: es => t :: sentTasks es
  | _ :: es => sentTasks es

/-- The robots.txt requests issued, in order. -/
def probes : List Event → List GoString
  | [] => []
  | Event.probe u :: es => u :: probes es
  | _ :: es => probes es

/-! ## Scanner, Stop -/

/-- A channel that is only ever closed (nothing is sent on it): `StopChan`. -/
structure Chan where
  closed : Bool
  deriving DecidableEq, Repr

/-- The configuration held by `Scanner`.  `Headers` is the header map in the
order in which a `range` over it yields its entries; the task and result
channels are represented by traces and result lists. -/
structure Scanner where
  BaseURLs : List GoString
  Dict : List GoString
  ThreadCount : Int
  Timeout : Nat
  Headers : List (GoString × GoString)
  StopChan : Chan
  deriving DecidableEq, Repr

/-- The constructor `NewScanner`: `StopChan: make(chan struct{})`. -/
def NewScanner (baseURLs dict : List GoString) (threadCount : Int) (timeout : Nat)
    (headers : List (GoString × GoString)) : Scanner :=
  { BaseURLs := baseURLs, Dict := dict, ThreadCount := threadCount, Timeout := timeout,
    Headers := headers, StopChan := { closed := false } }

/-- Go `close(c)`: closing a closed channel panics. -/
def closeChan (c : Chan) : Except GoString Chan :=
  if c.closed then .error "close of closed channel".toList else .ok { closed := true }

/-- The method `Stop`: `close(s.StopChan)`.  An error result is the panic. -/
def Stop (s : Scanner) : Except GoString Scanner :=
  match closeChan s.StopChan with
  | .ok c => .ok { s with StopChan := c }
  | .error e => .error e

/-! ## worker -/

/-- The outcome of one probe (`ScanResult`).  `Err = none` is a nil error. -/
structure ScanResult where
  FullURL : GoString
  StatusCode : Int
  Duration : Nat
  Err : Option GoString
  ContentLength : Nat
  Title : GoString
  deriving DecidableEq, Repr

/-- Go `unicode.ToLower` on one rune: ASCII letters by the ASCII rule, runes
outside ASCII by the Unicode case tables `uni` of the standard library. -/
def toLowerRune (uni : Char → Char) (c : Char) : Char :=
  if c.toNat < 128 then c.toLower else uni c

/-- Go `strings.ToLower`. -/
def ToLower (uni : Char → Char) (s : GoString) : GoString := s.map (toLowerRune uni)

/-- The default User-Agent string of `worker`. -/
def defaultUA : GoString :=
  "Mozilla/5.0 (Windows NT 6.1; WOW64) AppleWebKit/537.36 (KHTML, like Gecko) Chrome/39.0.2171.71 Safari/537.36".toList

/-- The loop `for k, v := range s.Headers` of `worker`, on the request and the
flag `uaSet`. -/
def setHeaders (uni : Char → Char) :
    List (GoString × GoString) → Request × Bool → Request × Bool
  | [], st => st
  | (k, v) :: rest, (req, uaSet) =>
    let req := { req with headerSets := req.headerSets ++ [(k, v)] }
    let uaSet := if ToLower uni k = "user-agent".toList then true else uaSet
    setHeaders uni rest (req, uaSet)

/-- The request `worker` builds for a task, up to the call of the client. -/
def buildRequest (uni : Char → Char) (s : Scanner) (task : ScanTask) : Request :=
  let req : Request := { uri := task.FullURL, method := "GET".toList, headerSets := [] }
  let (req, uaSet) := setHeaders uni s.Headers (req, false)
  if !uaSet then
    { req with headerSets := req.headerSets ++ [("User-Agent".toList, defaultUA)] }
  else req

/-- A literal of the pattern under `(?i)`: `lit` is in lower case, a rune of
the text matches a rune of `lit` when its lower case is that rune.  Returns the
text after the literal. -/
def matchLit : GoString → GoString → Option GoString
  | [], s => some s
  | _ :: _, [] => none
  | p :: ps, c :: cs => if c.toLower = p then matchLit ps cs else none

/-- The tail `(.*?)</title>` of the pattern: the shortest run of runes other
than newline that is followed by the closing tag.  Returns the captured group
and the text of the closing tag. -/
def matchInner : GoString → Option (GoString × GoString)
  | [] => none
  | c :: cs =>
    match matchLit "</title>".toList (c :: cs) with
    | some _ => some ([], (c :: cs).take 8)
    | none =>
      if c = '\n' then none
      else (matchInner cs).map (fun r => (c :: r.1, r.2))

/-- The part `.*?>(.*?)</title>` of the pattern.  Returns the text matched by
`.*?>`, the captured group and the text of the closing tag. -/
def matchOpen : GoString → Option (GoString × GoString × GoString)
  | [] => none
  | c :: cs =>
    match (if c = '>' then matchInner cs else none) with
    | some r => some ([c], r.1, r.2)
    | none =>
      if c = '\n' then none
      else (matchOpen cs).map (fun r => (c :: r.1, r.2.1, r.2.2))

/-- A match of the whole pattern starting at the head of the text: the matched
text and the captured group. -/
def matchAt (s : GoString) : Option (GoString × GoString) :=
  match matchLit "<title".toList s with
  | none => none
  | some rest => (matchOpen rest).map (fun r => (s.take 6 ++ r.1 ++ r.2.1 ++ r.2.2, r.2.1))

/-- The call `titleRegex.FindStringSubmatch` for the pattern
`(?i)<title.*?>(.*?)</title>`: nil without a match, otherwise the leftmost
match followed by its one capture group. -/
def FindStringSubmatch : GoString → List GoString
  | [] => []
  | c :: cs =>
    match matchAt (c :: cs) with
    | some r => [r.1, r.2]
    | none => FindStringSubmatch cs

/-- The replacer `strings.NewReplacer("\n", " ", "\r", " ", "\t", " ").Replace`. -/
def Replace (s : GoString) : GoString :=
  s.map (fun c => if c = '\n' ∨ c = '\r' ∨ c = '\t' then ' ' else c)

/-- The title computed by `worker` from a response body. -/
def extractTitle (body : GoString) : GoString :=
  let found := FindStringSubmatch body
  if found.length > 2 then Replace (TrimSpace (found.getD 1 [])) else []

/-- The body of the `default:` branch of `worker` for one task: the result it
sends on the result channel.  `duration` is `time.Since(start)`. -/
def scanTask (uni : Char → Char) (s : Scanner) (client : Client) (duration : Nat)
    (task : ScanTask) : ScanResult :=
  let req := buildRequest uni s task
  match client req with
  | .ok resp =>
    { FullURL := task.FullURL, StatusCode := resp.StatusCode, Duration := duration,
      Err := none, ContentLength := len resp.body, Title := extractTitle resp.body }
  | .error err =>
    { FullURL := task.FullURL, StatusCode := 0, Duration := duration,
      Err := some err, ContentLength := 0, Title := [] }

/-- The loop of `worker` over the tasks it receives.  `stopped i` tells whether
`StopChan` is closed when the `i`-th received task is examined; `clock i` is
the duration measured for it. -/
def worker (uni : Char → Char) (s : Scanner) (client : Client) (stopped : Nat → Bool)
    (clock : Nat → Nat) : Nat → List ScanTask → List ScanResult
  | _, [] => []
  | i, task :: rest =>
    if stopped i then []
    else scanTask uni s client (clock i) task :: worker uni s client stopped clock (i + 1) rest

/-! ## Auxiliary definitions for the statements -/

/-- The normalisation of a target written three times in the source:
`if !strings.HasSuffix(base, "/") { base += "/" }`. -/
def normalize (base : GoString) : GoString :=
  if !HasSuffix base "/".toList then base ++ "/".toList else base

/-- The task built in the loop bodies of `generateTasks`. -/
def mkTask (base path : GoString) : ScanTask :=
  { BaseURL := base, Path := path, FullURL := base ++ TrimLeft path "/".toList }

/-- One task per (target, path) pair, targets outermost, both in input order. -/
def tasksFor (baseURLs paths : List GoString) : List ScanTask :=
  (baseURLs.map (fun t => paths.map (fun p => mkTask (normalize t) p))).flatten

/-- The `robotsPaths` slice at the end of `generateTasks`. -/
def discovered (client : Client) (baseURLs dict : List GoString) : List GoString :=
  (generateState client baseURLs dict).robotsPaths

/-- The paths read off one robots.txt outcome. -/
def pathsOf (r : Except GoString Response) : List GoString :=
  match r with
  | .ok resp => if resp.StatusCode = 200 then scanLines (Split '\n' resp.body) [] else []
  | .error _ => []

/-- The discovered paths as the specification words them: the body is split
on newline, each line is trimmed, the lines that start with `Disallow:` are
kept, the operand after that prefix is trimmed, and the operands that are
empty or the bare root path are dropped. -/
def disallowPaths (body : GoString) : List GoString :=
  ((((Split '\n' body).map TrimSpace).filter
      (fun line => HasPrefix line "Disallow:".toList)).map
      (fun line => TrimSpace (line.drop "Disallow:".toList.length))).filter
    (fun path => path != [] && path != "/".toList)

/-- The robots.txt URL of a target. -/
def robotsURL (t : GoString) : GoString := normalize t ++ "robots.txt".toList

/-! ## Lemmas on generateTasks -/

lemma sendPaths_eq (base : GoString) (ps : List GoString) (tr : List Event) :
    sendPaths base ps tr = tr ++ ps.map (fun p => Event.send (mkTask base p)) := by
  induction ps generalizing tr with
  | nil => simp [sendPaths]
  | cons p ps ih => simp [sendPaths, ih, mkTask]

lemma sweepRobots_eq (R T : List GoString) (tr : List Event) :
    sweepRobots R T tr = tr ++ (tasksFor T R).map Event.send := by
  induction T generalizing tr with
  | nil => simp [sweepRobots, tasksFor]
  | cons t T ih =>
    simp only [sweepRobots, ih, sendPaths_eq]
    simp [tasksFor, normalize, List.map_map, Function.comp_def]

lemma sweepDict_done (client : Client) (D T : List GoString) (st : GenState)
    (h : st.onceDone = true) :
    sweepDict client D T st =
      { st with trace := st.trace ++ (tasksFor T D).map Event.send } := by
  induction T generalizing st with
  | nil => simp [sweepDict, tasksFor]
  | cons t T ih =>
    simp only [sweepDict, onceDo, h, if_true]
    rw [ih _ rfl]
    simp [sendPaths_eq, tasksFor, normalize, List.map_map, Function.comp_def, h]

lemma hasSuffix_iff (s p : GoString) : HasSuffix s p = true ↔ p <:+ s := by
  simp [HasSuffix]

lemma hasPrefix_iff (s p : GoString) : HasPrefix s p = true ↔ p <+: s := by
  simp [HasPrefix]

lemma normalize_of_suffix (t : GoString) (h : HasSuffix t "/".toList = true) :
    normalize t = t := by
  unfold normalize; rw [h]; rfl

lemma normalize_of_not_suffix (t : GoString) (h : HasSuffix t "/".toList = false) :
    normalize t = t ++ "/".toList := by
  unfold normalize; rw [h]; rfl

lemma normalize_hasSuffix (t : GoString) : HasSuffix (normalize t) "/".toList = true := by
  cases h : HasSuffix t "/".toList with
  | true => rw [normalize_of_suffix t h]; exact h
  | false =>
    rw [normalize_of_not_suffix t h, hasSuffix_iff]
    exact List.suffix_append _ _

lemma normalize_idem (t : GoString) : normalize (normalize t) = normalize t :=
  normalize_of_suffix _ (normalize_hasSuffix t)

lemma addRobotsPaths_eq (client : Client) (t : GoString) (st : GenState) :
    addRobotsPaths client (normalize t) st =
      { onceDone := st.onceDone,
        robotsPaths :=
          match client (robotsRequest (normalize t ++ "robots.txt".toList)) with
          | .ok resp =>
            if resp.StatusCode = 200 then scanLines (Split '\n' resp.body) st.robotsPaths
            else st.robotsPaths
          | .error _ => st.robotsPaths,
        trace := st.trace ++ [Event.probe (normalize t ++ "robots.txt".toList)] } := by
  have hn : (if !HasSuffix (normalize t) "/".toList then normalize t ++ "/".toList
      else normalize t) = normalize t := normalize_idem t
  unfold addRobotsPaths
  simp only [hn]
  cases client (robotsRequest (normalize t ++ "robots.txt".toList)) with
  | error e => rfl
  | ok resp => by_cases h : resp.StatusCode = 200 <;> simp [h]

/-- The whole of `generateTasks` for a non-empty target list. -/
lemma generateState_cons (client : Client) (t : GoString) (T D : List GoString) :
    generateState client (t :: T) D =
      { onceDone := true,
        robotsPaths := pathsOf (client (robotsRequest (normalize t ++ "robots.txt".toList))),
        trace := Event.probe (normalize t ++ "robots.txt".toList) ::
          ((tasksFor (t :: T) D).map Event.send ++
           (tasksFor (t :: T)
              (pathsOf (client (robotsRequest (normalize t ++ "robots.txt".toList))))).map Event.send) } := by
  unfold generateState
  simp only [sweepDict, onceDo]
  have hn : (if !HasSuffix t "/".toList then t ++ "/".toList else t) = normalize t := rfl
  simp only [hn, Bool.false_eq_true, if_false, addRobotsPaths_eq]
  rw [sweepDict_done _ _ _ _ rfl]
  simp only [sweepRobots_eq, sendPaths_eq]
  have hp : (match client (robotsRequest (normalize t ++ "robots.txt".toList)) with
      | .ok resp => if resp.StatusCode = 200 then scanLines (Split '\n' resp.body) [] else []
      | .error _ => []) = pathsOf (client (robotsRequest (normalize t ++ "robots.txt".toList))) := rfl
  simp only [hp]
  simp [tasksFor]

lemma generateState_nil (client : Client) (D : List GoString) :
    generateState client [] D = { onceDone := false, robotsPaths := [], trace := [] } := by
  simp [generateState, sweepDict, sweepRobots]

lemma sentTasks_append (a b : List Event) :
    sentTasks (a ++ b) = sentTasks a ++ sentTasks b := by
  induction a with
  | nil => rfl
  | cons e a ih => cases e <;> simp [sentTasks, ih]

lemma sentTasks_map_send (l : List ScanTask) : sentTasks (l.map Event.send) = l := by
  induction l with
  | nil => rfl
  | cons t l ih => simp [sentTasks, ih]

lemma probes_append (a b : List Event) : probes (a ++ b) = probes a ++ probes b := by
  induction a with
  | nil => rfl
  | cons e a ih => cases e <;> simp [probes, ih]

lemma probes_map_send (l : List ScanTask) : probes (l.map Event.send) = [] := by
  induction l with
  | nil => rfl
  | cons t l ih => simp [probes, ih]

lemma close_not_mem_map_send (l : List ScanTask) : Event.close ∉ l.map Event.send := by
  simp

lemma tasksFor_length (T P : List GoString) : (tasksFor T P).length = T.length * P.length := by
  induction T with
  | nil => simp [tasksFor]
  | cons t T ih =>
    have : tasksFor (t :: T) P = P.map (fun p => mkTask (normalize t) p) ++ tasksFor T P := by
      simp [tasksFor]
    rw [this, List.length_append, List.length_map, ih, List.length_cons, Nat.succ_mul]
    omega

lemma mem_tasksFor (T P : List GoString) (task : ScanTask) :
    task ∈ tasksFor T P ↔ ∃ t ∈ T, ∃ p ∈ P, task = mkTask (normalize t) p := by
  simp only [tasksFor, List.mem_flatten, List.mem_map]
  constructor
  · rintro ⟨l, ⟨t, ht, rfl⟩, hl⟩
    rw [List.mem_map] at hl
    obtain ⟨p, hp, rfl⟩ := hl
    exact ⟨t, ht, p, hp, rfl⟩
  · rintro ⟨t, ht, p, hp, rfl⟩
    exact ⟨_, ⟨t, ht, rfl⟩, List.mem_map.mpr ⟨p, hp, rfl⟩⟩

lemma discovered_cons (client : Client) (t : GoString) (T D : List GoString) :
    discovered client (t :: T) D = pathsOf (client (robotsRequest (robotsURL t))) := by
  simp [discovered, generateState_cons, robotsURL]

lemma discovered_nil (client : Client) (D : List GoString) : discovered client [] D = [] := by
  simp [discovered, generateState_nil]

/-- The operations of `generateTasks` on a non-empty target list: the probe,
the dictionary sweep, the robots sweep, the close. -/
lemma generateTasks_cons (client : Client) (t : GoString) (T D : List GoString) :
    generateTasks client (t :: T) D =
      Event.probe (robotsURL t) ::
        ((tasksFor (t :: T) D).map Event.send ++
         ((tasksFor (t :: T) (discovered client (t :: T) D)).map Event.send ++
          [Event.close])) := by
  rw [discovered_cons]
  simp [generateTasks, generateState_cons, robotsURL]

lemma generateTasks_nil (client : Client) (D : List GoString) :
    generateTasks client [] D = [Event.close] := by
  simp [generateTasks, generateState_nil]

/-- The tasks sent by `generateTasks`: the dictionary sweep, then the robots sweep. -/
lemma sentTasks_generateTasks (client : Client) (T D : List GoString) :
    sentTasks (generateTasks client T D) =
      tasksFor T D ++ tasksFor T (discovered client T D) := by
  cases T with
  | nil => simp [generateTasks_nil, sentTasks, tasksFor]
  | cons t T =>
    rw [generateTasks_cons]
    simp [sentTasks, sentTasks_append, sentTasks_map_send]

/-- The trace of `generateTasks` ends with the one close of the task channel. -/
lemma generateTasks_close_last (client : Client) (T D : List GoString) :
    ∃ pre, generateTasks client T D = pre ++ [Event.close] ∧ Event.close ∉ pre := by
  cases T with
  | nil => exact ⟨[], by simp [generateTasks_nil], by simp⟩
  | cons t T =>
    refine ⟨Event.probe (robotsURL t) :: ((tasksFor (t :: T) D).map Event.send ++
      (tasksFor (t :: T) (discovered client (t :: T) D)).map Event.send), ?_, ?_⟩
    · rw [generateTasks_cons]; simp
    · simp

lemma trimLeft_slash_no_slash (path : GoString) :
    HasPrefix (TrimLeft path "/".toList) "/".toList = false := by
  induction path with
  | nil => rfl
  | cons c cs ih =>
    by_cases h : c = '/'
    · subst h
      simpa [TrimLeft, List.dropWhile] using ih
    · have hb : (c == '/') = false := by simp [h]
      have hc : ("/".toList.contains c) = false := by
        simp [List.contains, List.elem, hb]
      simp only [TrimLeft, List.dropWhile, hc]
      simp [HasPrefix, List.isPrefixOf, Ne.symm h]

lemma normalize_double_slash (t : GoString) :
    HasSuffix (normalize t) "//".toList = HasSuffix t "//".toList := by
  cases h : HasSuffix t "/".toList with
  | true => rw [normalize_of_suffix t h]
  | false =>
    rw [normalize_of_not_suffix t h]
    have h1 : HasSuffix t "//".toList = false := by
      rw [Bool.eq_false_iff]
      intro hh
      rw [hasSuffix_iff] at hh
      have : "/".toList <:+ t := List.IsSuffix.trans (by decide) hh
      rw [← hasSuffix_iff, h] at this
      exact Bool.false_ne_true this
    rw [h1, Bool.eq_false_iff]
    intro hh
    rw [hasSuffix_iff] at hh
    obtain ⟨r, hr⟩ := hh
    have h2 : (r ++ "/".toList) ++ "/".toList = t ++ "/".toList := by
      rw [← hr]; simp
    have h3 : r ++ "/".toList = t := List.append_cancel_right h2
    have h4 : "/".toList <:+ t := ⟨r, h3⟩
    rw [← hasSuffix_iff, h] at h4
    exact Bool.false_ne_true h4

lemma scanLines_eq (lines acc : List GoString) :
    scanLines lines acc = acc ++
      ((((lines.map TrimSpace).filter
          (fun line => HasPrefix line "Disallow:".toList)).map
          (fun line => TrimSpace (line.drop "Disallow:".toList.length))).filter
        (fun path => path != [] && path != "/".toList)) := by
  induction lines generalizing acc with
  | nil => simp [scanLines]
  | cons l ls ih =>
    unfold scanLines
    simp only [List.map_cons]
    generalize "Disallow:".toList = pre at *
    generalize "/".toList = root at *
    cases hp : HasPrefix (TrimSpace l) pre with
    | false => simp [hp, ih]
    | true =>
      have htp : TrimPrefix (TrimSpace l) pre = (TrimSpace l).drop pre.length := by
        simp [TrimPrefix, hp]
      simp only [if_true, htp, List.filter_cons, hp, List.map_cons]
      by_cases hk : TrimSpace ((TrimSpace l).drop pre.length) ≠ [] ∧
          TrimSpace ((TrimSpace l).drop pre.length) ≠ root
      · have hb : (TrimSpace ((TrimSpace l).drop pre.length) != [] &&
            TrimSpace ((TrimSpace l).drop pre.length) != root) = true := by
          simp only [Bool.and_eq_true, bne_iff_ne]
          exact hk
        rw [if_pos hk, ih]
        simp only [hb, if_true]
        simp
      · have hb : (TrimSpace ((TrimSpace l).drop pre.length) != [] &&
            TrimSpace ((TrimSpace l).drop pre.length) != root) = false := by
          rw [Bool.eq_false_iff]
          intro hh
          simp only [Bool.and_eq_true, bne_iff_ne] at hh
          exact hk hh
        rw [if_neg hk, ih]
        simp only [hb]
        simp

lemma pathsOf_ok_200 (resp : Response) (h : resp.StatusCode = 200) :
    pathsOf (.ok resp) = disallowPaths resp.body := by
  simp only [pathsOf, h, if_true, disallowPaths]
  rw [scanLines_eq]
  simp

lemma worker_length_unstopped (uni : Char → Char) (s : Scanner) (client : Client)
    (clock : Nat → Nat) (i : Nat) (tasks : List ScanTask) :
    (worker uni s client (fun _ => false) clock i tasks).length = tasks.length := by
  induction tasks generalizing i with
  | nil => simp [worker]
  | cons t ts ih => simp [worker, ih]

/-! ## The claims on generateTasks -/

/-- C3, counterexample: for the target `http://a//` the base URL of the task
sent by `generateTasks` is the target itself, which ends in two slashes. -/
theorem generateTasks_base_double_slash :
    ∃ task ∈ sentTasks (generateTasks (fun _ => .error []) ["http://a//".toList] ["x".toList]),
      task.FullURL = "http://a//x".toList ∧ HasSuffix task.BaseURL "//".toList = true :=
  ⟨⟨"http://a//".toList, "x".toList, "http://a//x".toList⟩, by decide, by decide, by decide⟩

/-- C3, amended: every task sent by `generateTasks` (dictionary or robots
sweep) has `FullURL = BaseURL ++ p`, where `p` is the task's `Path` without its
leading slashes and so does not start with a slash, and `BaseURL` is one of the
targets, with a slash appended when the target did not end in one: it ends in
a slash, and it ends in two slashes exactly when that target does. -/
theorem generateTasks_fullURL (client : Client) (T D : List GoString) (task : ScanTask)
    (h : task ∈ sentTasks (generateTasks client T D)) :
    task.FullURL = task.BaseURL ++ TrimLeft task.Path "/".toList ∧
    HasPrefix (TrimLeft task.Path "/".toList) "/".toList = false ∧
    HasSuffix task.BaseURL "/".toList = true ∧
    ∃ t ∈ T, task.BaseURL = (if HasSuffix t "/".toList then t else t ++ "/".toList) ∧
      HasSuffix task.BaseURL "//".toList = HasSuffix t "//".toList := by
  rw [sentTasks_generateTasks, List.mem_append, mem_tasksFor, mem_tasksFor] at h
  have key : ∃ t ∈ T, ∃ p, task = mkTask (normalize t) p := by
    rcases h with ⟨t, ht, p, _, e⟩ | ⟨t, ht, p, _, e⟩ <;> exact ⟨t, ht, p, e⟩
  obtain ⟨t, ht, p, rfl⟩ := key
  refine ⟨rfl, trimLeft_slash_no_slash p, normalize_hasSuffix t, t, ht, ?_,
    normalize_double_slash t⟩
  show normalize t = _
  cases hs : HasSuffix t "/".toList with
  | true => rw [normalize_of_suffix t hs]; rfl
  | false => rw [normalize_of_not_suffix t hs]; rfl

/-- C3, witness: the task for target `http://a` and dictionary entry `//x`. -/
theorem generateTasks_fullURL_witness :
    "http://a/x".toList = "http://a/".toList ++ TrimLeft "//x".toList "/".toList ∧
    HasPrefix (TrimLeft "//x".toList "/".toList) "/".toList = false ∧
    HasSuffix "http://a/".toList "/".toList = true ∧
    ∃ t ∈ ["http://a".toList],
      "http://a/".toList = (if HasSuffix t "/".toList then t else t ++ "/".toList) ∧
      HasSuffix "http://a/".toList "//".toList = HasSuffix t "//".toList :=
  generateTasks_fullURL (fun _ => .error []) ["http://a".toList] ["//x".toList]
    ⟨"http://a/".toList, "//x".toList, "http://a/x".toList⟩ (by decide)

/-- C4: `generateTasks` sends exactly `|T| * |D| + |T| * |R|` tasks, `R` being
the paths discovered from robots.txt, all of them before the one close of the
task channel, which is its last operation; a worker that never observes the
stop signal emits one result per task it receives; and for the one target and
the three dictionary entries of the test, with no robots path discovered, the
number of tasks is 3. -/
theorem generateTasks_count (client : Client) (T D : List GoString) :
    (sentTasks (generateTasks client T D)).length =
      T.length * D.length + T.length * (discovered client T D).length ∧
    (∃ pre, generateTasks client T D = pre ++ [Event.close] ∧ Event.close ∉ pre ∧
      sentTasks pre = sentTasks (generateTasks client T D)) ∧
    (∀ (uni : Char → Char) (s : Scanner) (wclient : Client) (clock : Nat → Nat),
      (worker uni s wclient (fun _ => false) clock 0
        (sentTasks (generateTasks client T D))).length =
      T.length * D.length + T.length * (discovered client T D).length) ∧
    (sentTasks (generateTasks (fun _ => .error [])
      ["https://httpbin.org".toList]
      ["/status/200".toList, "/status/404".toList, "/delay/1".toList])).length = 3 := by
  have hcount : (sentTasks (generateTasks client T D)).length =
      T.length * D.length + T.length * (discovered client T D).length := by
    rw [sentTasks_generateTasks, List.length_append, tasksFor_length, tasksFor_length]
  refine ⟨hcount, ?_, ?_, by decide⟩
  · obtain ⟨pre, hpre, hnot⟩ := generateTasks_close_last client T D
    refine ⟨pre, hpre, hnot, ?_⟩
    rw [hpre, sentTasks_append]
    simp [sentTasks]
  · intro uni s wclient clock
    rw [worker_length_unstopped, hcount]

/-- C5: with `R` the paths discovered from robots.txt, the trace of
`generateTasks` is some operations `pre` whose sent tasks are the `|T| * |D|`
dictionary tasks, then one send per (target, robots path) pair, then the close;
for every target `t` and every `r` in `R` the task with full URL
`t` normalised followed by `r` without its leading slashes is among those
sends; and for target `http://a/`, dictionary `x` and a robots.txt answering
`Disallow: /secret`, the task for `http://a/secret` is sent after the one for
`http://a/x` and before the close. -/
theorem generateTasks_robots_after_sweep (client : Client) (T D : List GoString) :
    (∃ pre, generateTasks client T D =
        pre ++ (tasksFor T (discovered client T D)).map Event.send ++ [Event.close] ∧
      sentTasks pre = tasksFor T D ∧ (sentTasks pre).length = T.length * D.length) ∧
    (∀ t ∈ T, ∀ r ∈ discovered client T D,
      (⟨normalize t, r, normalize t ++ TrimLeft r "/".toList⟩ : ScanTask) ∈
        tasksFor T (discovered client T D)) ∧
    generateTasks (fun _ => .ok ⟨200, "Disallow: /secret".toList⟩)
        ["http://a/".toList] ["x".toList] =
      [Event.probe "http://a/robots.txt".toList,
       Event.send ⟨"http://a/".toList, "x".toList, "http://a/x".toList⟩,
       Event.send ⟨"http://a/".toList, "/secret".toList, "http://a/secret".toList⟩,
       Event.close] := by
  refine ⟨?_, ?_, by decide⟩
  · cases T with
    | nil =>
      exact ⟨[], by simp [generateTasks_nil, tasksFor], by simp [sentTasks, tasksFor],
        by simp [sentTasks]⟩
    | cons t T =>
      refine ⟨Event.probe (robotsURL t) :: (tasksFor (t :: T) D).map Event.send, ?_, ?_, ?_⟩
      · rw [generateTasks_cons]; simp
      · simp [sentTasks, sentTasks_map_send]
      · simp only [sentTasks, sentTasks_map_send, tasksFor_length]
  · intro t ht r hr
    rw [mem_tasksFor]
    exact ⟨t, ht, r, hr, rfl⟩

/-- C6, counterexample: for target `http://a/` and dictionary `x` the probe of
robots.txt is the first operation of `generateTasks`; the dictionary task is
sent after it, not before it. -/
theorem generateTasks_probe_first :
    generateTasks (fun _ => .error []) ["http://a/".toList] ["x".toList] =
      [Event.probe "http://a/robots.txt".toList,
       Event.send ⟨"http://a/".toList, "x".toList, "http://a/x".toList⟩,
       Event.close] ∧
    List.indexOf (Event.probe "http://a/robots.txt".toList)
        (generateTasks (fun _ => .error []) ["http://a/".toList] ["x".toList]) <
      List.indexOf (Event.send ⟨"http://a/".toList, "x".toList, "http://a/x".toList⟩)
        (generateTasks (fun _ => .error []) ["http://a/".toList] ["x".toList]) := by
  constructor <;> decide

/-- C6, amended: on a non-empty target list `generateTasks` issues exactly one
robots.txt probe, for the first target normalised to end in a slash followed
by `robots.txt`, and that probe is its first operation: every task, of the
dictionary sweep and of the robots sweep, is sent after it. -/
theorem generateTasks_probe_once (client : Client) (t : GoString) (T D : List GoString) :
    probes (generateTasks client (t :: T) D) =
      [(if HasSuffix t "/".toList then t else t ++ "/".toList) ++ "robots.txt".toList] ∧
    ∃ rest, generateTasks client (t :: T) D =
        Event.probe ((if HasSuffix t "/".toList then t else t ++ "/".toList) ++
          "robots.txt".toList) :: rest ∧
      probes rest = [] ∧
      sentTasks rest = sentTasks (generateTasks client (t :: T) D) ∧
      (sentTasks rest).length =
        (t :: T).length * D.length + (t :: T).length * (discovered client (t :: T) D).length := by
  have hu : (if HasSuffix t "/".toList then t else t ++ "/".toList) ++ "robots.txt".toList =
      robotsURL t := by
    unfold robotsURL
    cases hs : HasSuffix t "/".toList with
    | true => rw [normalize_of_suffix t hs]; rfl
    | false => rw [normalize_of_not_suffix t hs]; rfl
  rw [hu, generateTasks_cons]
  refine ⟨by simp [probes, probes_append, probes_map_send], _, rfl,
    by simp [probes, probes_append, probes_map_send], by simp [sentTasks], ?_⟩
  simp only [sentTasks_append, sentTasks_map_send, sentTasks, List.append_nil,
    List.length_append, tasksFor_length]

/-- C8: when the robots.txt request of the first target fails or is answered
with a status other than 200, `generateTasks` discovers no path, sends exactly
the dictionary tasks and then closes the task channel; for target `http://a/`,
dictionary `x`, `y` and an unreachable robots.txt the full URLs sent are
`http://a/x` and `http://a/y`. -/
theorem generateTasks_robots_failure (client : Client) (T D : List GoString)
    (h : ∀ t resp, T.head? = some t →
      client (robotsRequest (robotsURL t)) = .ok resp → resp.StatusCode ≠ 200) :
    discovered client T D = [] ∧
    sentTasks (generateTasks client T D) = tasksFor T D ∧
    (∃ pre, generateTasks client T D = pre ++ [Event.close] ∧ Event.close ∉ pre ∧
      sentTasks pre = tasksFor T D) ∧
    (∀ e, (sentTasks (generateTasks (fun _ => .error e)
        ["http://a/".toList] ["x".toList, "y".toList])).map ScanTask.FullURL =
      ["http://a/x".toList, "http://a/y".toList]) := by
  have hd : discovered client T D = [] := by
    cases T with
    | nil => exact discovered_nil client D
    | cons t T =>
      rw [discovered_cons]
      cases hc : client (robotsRequest (robotsURL t)) with
      | error e => rfl
      | ok resp =>
        have := h t resp rfl hc
        simp [pathsOf, this]
  have hs : sentTasks (generateTasks client T D) = tasksFor T D := by
    rw [sentTasks_generateTasks, hd]
    simp [tasksFor]
  refine ⟨hd, hs, ?_, ?_⟩
  · obtain ⟨pre, hpre, hnot⟩ := generateTasks_close_last client T D
    refine ⟨pre, hpre, hnot, ?_⟩
    rw [← hs, hpre, sentTasks_append]
    simp [sentTasks]
  · intro e
    rfl

/-- C8, witness: an unreachable robots.txt for target `http://a/`. -/
theorem generateTasks_robots_failure_witness :
    discovered (fun _ => .error "timeout".toList) ["http://a/".toList]
        ["x".toList, "y".toList] = [] ∧
    sentTasks (generateTasks (fun _ => .error "timeout".toList) ["http://a/".toList]
        ["x".toList, "y".toList]) =
      [⟨"http://a/".toList, "x".toList, "http://a/x".toList⟩,
       ⟨"http://a/".toList, "y".toList, "http://a/y".toList⟩] :=
  have h := generateTasks_robots_failure (fun _ => .error "timeout".toList)
    ["http://a/".toList] ["x".toList, "y".toList]
    (fun _ _ _ hc => by cases hc)
  ⟨h.1, h.2.1.trans (by decide)⟩

/-- C7: on a response with status 200 the paths discovered by `generateTasks`
(its `addRobotsPaths`) are, in body order, the trimmed operands of the trimmed
lines of the body that start with `Disallow:`, without the empty operands and
without the bare root path; nothing else is discovered. -/
theorem discovered_eq_disallowPaths (client : Client) (t : GoString) (T D : List GoString)
    (resp : Response) (hok : client (robotsRequest (robotsURL t)) = .ok resp)
    (h200 : resp.StatusCode = 200) :
    discovered client (t :: T) D = disallowPaths resp.body ∧
    ∀ st : GenState, (addRobotsPaths client (normalize t) st).robotsPaths =
      st.robotsPaths ++ disallowPaths resp.body := by
  constructor
  · rw [discovered_cons, hok, pathsOf_ok_200 resp h200]
  · intro st
    rw [addRobotsPaths_eq]
    show (match client (robotsRequest (robotsURL t)) with
      | .ok resp =>
        if resp.StatusCode = 200 then scanLines (Split '\n' resp.body) st.robotsPaths
        else st.robotsPaths
      | .error _ => st.robotsPaths) = _
    rw [hok]
    simp only [h200, if_true, disallowPaths]
    rw [scanLines_eq]

/-- C7, witness: a robots.txt with a comment, an empty operand, the root path,
surrounding blanks and a carriage return. -/
theorem discovered_eq_disallowPaths_witness :
    discovered
        (fun _ => .ok ⟨200,
          "User-agent: *\nDisallow: /secret\nDisallow: /\nDisallow:\n  Disallow:   /admin/ \r\nAllow: /x\n# Disallow: /no".toList⟩)
        ["http://a".toList] [] =
      ["/secret".toList, "/admin/".toList] :=
  (discovered_eq_disallowPaths
    (fun _ => .ok ⟨200,
      "User-agent: *\nDisallow: /secret\nDisallow: /\nDisallow:\n  Disallow:   /admin/ \r\nAllow: /x\n# Disallow: /no".toList⟩)
    "http://a".toList [] [] _ rfl (by decide)).1.trans (by decide)

/-! ## The claims on worker and Stop -/

lemma findStringSubmatch_length (body : GoString) : (FindStringSubmatch body).length ≤ 2 := by
  induction body with
  | nil => simp [FindStringSubmatch]
  | cons c cs ih =>
    unfold FindStringSubmatch
    cases matchAt (c :: cs) with
    | none => exact ih
    | some r => simp

lemma extractTitle_nil (body : GoString) : extractTitle body = [] := by
  have h := findStringSubmatch_length body
  unfold extractTitle
  simp only
  rw [if_neg (by omega)]

lemma setHeaders_eq (uni : Char → Char) (hs : List (GoString × GoString)) (req : Request)
    (b : Bool) :
    setHeaders uni hs (req, b) =
      ({ req with headerSets := req.headerSets ++ hs },
       b || hs.any (fun kv => decide (ToLower uni kv.1 = "user-agent".toList))) := by
  induction hs generalizing req b with
  | nil => simp [setHeaders]
  | cons kv hs ih =>
    obtain ⟨k, v⟩ := kv
    simp only [setHeaders, ih, List.any_cons, List.append_assoc, List.singleton_append]
    generalize "user-agent".toList = ua
    by_cases hk : ToLower uni k = ua
    · simp [hk]
    · simp [hk]

lemma buildRequest_headerSets (uni : Char → Char) (s : Scanner) (task : ScanTask) :
    (buildRequest uni s task).headerSets =
      if s.Headers.any (fun kv => decide (ToLower uni kv.1 = "user-agent".toList))
      then s.Headers else s.Headers ++ [("User-Agent".toList, defaultUA)] := by
  unfold buildRequest
  simp only [setHeaders_eq, Bool.false_or, List.nil_append]
  cases s.Headers.any (fun kv => decide (ToLower uni kv.1 = "user-agent".toList)) <;> rfl

lemma scanTask_of_error (uni : Char → Char) (s : Scanner) (client : Client) (duration : Nat)
    (task : ScanTask) (e : GoString) (h : client (buildRequest uni s task) = .error e) :
    scanTask uni s client duration task =
      { FullURL := task.FullURL, StatusCode := 0, Duration := duration,
        Err := some e, ContentLength := 0, Title := [] } := by
  unfold scanTask
  simp only [h]

lemma scanTask_of_ok (uni : Char → Char) (s : Scanner) (client : Client) (duration : Nat)
    (task : ScanTask) (r : Response) (h : client (buildRequest uni s task) = .ok r) :
    scanTask uni s client duration task =
      { FullURL := task.FullURL, StatusCode := r.StatusCode, Duration := duration,
        Err := none, ContentLength := len r.body, Title := extractTitle r.body } := by
  unfold scanTask
  simp only [h]

lemma response_statusCode_ne_zero (resp : Response) : resp.StatusCode ≠ 0 := by
  unfold Response.StatusCode
  split_ifs with h
  · decide
  · exact h

/-- C1: the title of the result is empty for every body, although the pattern
finds the tag pair: for the body `<title>Hi</title>` the match and its group
`Hi` are found and the title is empty, where the claim says `Hi`; for the body
`<TITLE>Hello`, newline, `World</TITLE>` the title is empty, where the claim
says `Hello World`. -/
theorem scanTask_title_empty :
    (∀ body, extractTitle body = []) ∧
    FindStringSubmatch "<title>Hi</title>".toList =
      ["<title>Hi</title>".toList, "Hi".toList] ∧
    (scanTask id (NewScanner ["http://a/".toList] ["x".toList] 1 1 [])
      (fun _ => .ok ⟨200, "<title>Hi</title>".toList⟩) 0
      ⟨"http://a/".toList, "x".toList, "http://a/x".toList⟩).Title = [] ∧
    (scanTask id (NewScanner ["http://a/".toList] ["x".toList] 1 1 [])
      (fun _ => .ok ⟨200, "<TITLE>Hello\nWorld</TITLE>".toList⟩) 0
      ⟨"http://a/".toList, "x".toList, "http://a/x".toList⟩).Title = [] :=
  ⟨extractTitle_nil, by decide, by decide, by decide⟩

/-- C2, counterexample: on a scanner made by `NewScanner` the first `Stop`
succeeds and the second one panics with `close of closed channel`. -/
theorem Stop_twice_panics :
    (Stop (NewScanner ["http://a/".toList] ["x".toList] 1 1 []) >>= Stop) =
      .error "close of closed channel".toList ∧
    ∃ s1, Stop (NewScanner ["http://a/".toList] ["x".toList] 1 1 []) = .ok s1 ∧
      s1.StopChan.closed = true ∧ Stop s1 = .error "close of closed channel".toList :=
  ⟨rfl, _, rfl, rfl, rfl⟩

/-- C2, amended: in a state where the stop channel is not yet closed, which
is the state `NewScanner` returns and which draining results does not change,
`Stop` completes without failing, changes nothing but the stop channel and
leaves it closed. -/
theorem Stop_of_open (s : Scanner) (h : s.StopChan.closed = false) :
    Stop s = .ok { s with StopChan := { closed := true } } ∧
    (∃ s1, Stop s = .ok s1 ∧ s1.StopChan.closed = true) ∧
    ∀ baseURLs dict threadCount timeout headers,
      (NewScanner baseURLs dict threadCount timeout headers).StopChan.closed = false := by
  have h1 : Stop s = .ok { s with StopChan := { closed := true } } := by
    simp [Stop, closeChan, h]
  exact ⟨h1, ⟨_, h1, rfl⟩, fun _ _ _ _ _ => rfl⟩

/-- C2, witness: the first `Stop` on a new scanner. -/
theorem Stop_of_open_witness :
    Stop (NewScanner ["http://a/".toList] ["x".toList] 3 3000 []) =
      .ok { NewScanner ["http://a/".toList] ["x".toList] 3 3000 [] with
            StopChan := { closed := true } } :=
  (Stop_of_open (NewScanner ["http://a/".toList] ["x".toList] 3 3000 []) rfl).1

/-- C9: the header calls `worker` makes on the request are the caller's
headers followed by the default User-Agent exactly when no header name has
`user-agent` as its lower case, and are the caller's headers alone, the
default not being set, exactly when some header name has; for a name of ASCII
runes, having `user-agent` as its lower case is being `user-agent` up to the
case of its letters. -/
theorem buildRequest_userAgent (uni : Char → Char) (s : Scanner) (task : ScanTask) :
    ((buildRequest uni s task).headerSets =
        s.Headers ++ [("User-Agent".toList, defaultUA)] ↔
      ¬ ∃ kv ∈ s.Headers, ToLower uni kv.1 = "user-agent".toList) ∧
    ((buildRequest uni s task).headerSets = s.Headers ↔
      ∃ kv ∈ s.Headers, ToLower uni kv.1 = "user-agent".toList) ∧
    (buildRequest uni s task).uri = task.FullURL ∧
    (∀ k : GoString, (∀ c ∈ k, c.toNat < 128) →
      (ToLower uni k = "user-agent".toList ↔ k.map Char.toLower = "user-agent".toList)) := by
  have hascii : ∀ k : GoString, (∀ c ∈ k, c.toNat < 128) →
      (ToLower uni k = "user-agent".toList ↔ k.map Char.toLower = "user-agent".toList) := by
    intro k hk
    have : ToLower uni k = k.map Char.toLower := by
      unfold ToLower
      apply List.map_congr_left
      intro c hc
      simp [toLowerRune, hk c hc]
    rw [this]
  have hne : s.Headers ≠ s.Headers ++ [("User-Agent".toList, defaultUA)] := by
    intro h
    have := congrArg List.length h
    simp at this
  have hany : s.Headers.any (fun kv => decide (ToLower uni kv.1 = "user-agent".toList)) = true ↔
      ∃ kv ∈ s.Headers, ToLower uni kv.1 = "user-agent".toList := by
    simp only [List.any_eq_true, decide_eq_true_eq]
  have huri : (buildRequest uni s task).uri = task.FullURL := by
    unfold buildRequest
    simp only [setHeaders_eq]
    split_ifs <;> rfl
  rw [buildRequest_headerSets]
  refine ⟨?_, ?_, huri, hascii⟩
  · rw [← hany]
    cases s.Headers.any (fun kv => decide (ToLower uni kv.1 = "user-agent".toList))
    · simp
    · simp
  · rw [← hany]
    cases s.Headers.any (fun kv => decide (ToLower uni kv.1 = "user-agent".toList))
    · simp
    · simp

/-- C10: the result `worker` emits for a task has status 0 exactly when its
error is non-nil: when the call fails the result has status 0, the error of
the call, content length 0 and an empty title; when the call succeeds the
result has the status of the response, which is not 0, a nil error and the
length of the body. -/
theorem scanTask_status_zero_iff_err (uni : Char → Char) (s : Scanner) (client : Client)
    (duration : Nat) (task : ScanTask) :
    ((scanTask uni s client duration task).StatusCode = 0 ↔
      (scanTask uni s client duration task).Err ≠ none) ∧
    (∀ err, client (buildRequest uni s task) = .error err →
      scanTask uni s client duration task =
        { FullURL := task.FullURL, StatusCode := 0, Duration := duration,
          Err := some err, ContentLength := 0, Title := [] }) ∧
    (∀ resp, client (buildRequest uni s task) = .ok resp →
      (scanTask uni s client duration task).StatusCode = resp.StatusCode ∧
      (scanTask uni s client duration task).StatusCode ≠ 0 ∧
      (scanTask uni s client duration task).Err = none ∧
      (scanTask uni s client duration task).ContentLength = len resp.body ∧
      (scanTask uni s client duration task).FullURL = task.FullURL) := by
  cases hc : client (buildRequest uni s task) with
  | error e =>
    rw [scanTask_of_error uni s client duration task e hc]
    refine ⟨by simp, ?_, ?_⟩
    · intro err herr
      cases herr
      rfl
    · intro resp hresp
      cases hresp
  | ok r =>
    rw [scanTask_of_ok uni s client duration task r hc]
    have hnz := response_statusCode_ne_zero r
    refine ⟨by simp [hnz], ?_, ?_⟩
    · intro err herr
      cases herr
    · intro resp hresp
      cases hresp
      exact ⟨rfl, hnz, rfl, rfl, rfl⟩

end Webscan
